import Mathlib

/-!
Verification of the check-rsat retrieval-and-evaluation core.

The Go sources are shallowly embedded as follows.

* A Go `time.Time` instant is an `Int`: the number of nanoseconds since Go's
  zero instant (January 1, year 1 UTC).  `t.IsZero()` is `t = 0`, and
  `a.Before(b)` is `a < b`.  The `.UTC()` conversions in the source do not
  change the instant and are dropped.
* Go float computations over durations (`Duration.Minutes`, `Duration.Hours`)
  appear in the source only inside comparisons against small constants or a
  truncation to whole days; at nanosecond granularity those comparisons and
  truncations are exact, so they are embedded as exact integer arithmetic
  (`diff.Minutes() <= 5` becomes `diff ≤ 5 * nsPerMinute`, and
  `math.Trunc(hours/24)` becomes truncating division by `nsPerDay`).
* `time.Now()` is passed in explicitly as a `now : Int` parameter.
* Pagination loops (`for { ... }`) are embedded as fuel-indexed recursive
  functions returning `Option`; `none` means the fuel ran out, which is how
  non-termination of the Go loop is observed in the model.
* `time.Parse` (standard library, outside this repository) is passed in as an
  oracle parameter, so theorems about `parseDate` quantify over every possible
  behaviour of the underlying layout parser.
-/

namespace Rsat

/-! ## Time model -/

/-- Nanoseconds per minute (Go `time.Minute` in nanoseconds). -/
def nsPerMinute : Int := 60 * 1000000000

/-- Embeds `syncTimeGraceMinutes` (syncplans.go line 24): grace time in
minutes applied between a plan's next scheduled sync time and the current
time.  The Go constant is the float64 `5`; it is only ever compared against
`Duration.Minutes()` values, which is exact at nanosecond granularity. -/
def syncTimeGraceMinutes : Int := 5

/-! ## Data model (syncplans.go, organizations source file) -/

/-- Embeds `SyncPlanPermissions` (syncplans.go lines 83-87). -/
structure SyncPlanPermissions where
  destroySyncPlans : Bool
  editSyncPlans : Bool
  viewSyncPlans : Bool
deriving DecidableEq

/-- Embeds `Product` (syncplans.go lines 91-101).  `StandardAPITime` fields
are instants (`Int`), `NullString` fields are `String`. -/
structure Product where
  lastSync : Int
  description : String
  cpID : String
  label : String
  lastSyncText : String
  name : String
  syncState : String
  id : Int
  repositoryCount : Int
deriving DecidableEq

/-- Embeds `SyncPlan` (syncplans.go lines 61-79). -/
structure SyncPlan where
  originalSyncDate : Int
  nextSync : Int
  updatedAt : Int
  createdAt : Int
  products : List Product
  cronExpression : String
  description : String
  interval : String
  name : String
  organizationName : String
  organizationLabel : String
  organizationTitle : String
  recurringLogicID : Int
  id : Int
  organizationID : Int
  permissions : SyncPlanPermissions
  enabled : Bool
deriving DecidableEq

/-- Embeds `SyncPlans` (syncplans.go line 108). -/
abbrev SyncPlans := List SyncPlan

/-! ## Classification engine (syncplans.go) -/

/-- Embeds `SyncPlan.IsStuck` (syncplans.go lines 213-230).  The Go method
reads `time.Now()`; here the current instant is the explicit `now` argument.
`nextSync.Before(now)` is `sp.nextSync < now`, and
`now.Sub(nextSync).Minutes() <= syncTimeGraceMinutes` is
`now - sp.nextSync ≤ syncTimeGraceMinutes * nsPerMinute` (exact at nanosecond
granularity). -/
def SyncPlan.IsStuck (sp : SyncPlan) (now : Int) : Bool :=
  if sp.enabled ∧ sp.nextSync < now then
    if now - sp.nextSync ≤ syncTimeGraceMinutes * nsPerMinute then
      false
    else
      true
  else
    false

/-- Embeds `SyncPlan.IsOKState` (syncplans.go lines 189-201). -/
def SyncPlan.IsOKState (sp : SyncPlan) (now : Int) : Bool :=
  if sp.IsStuck now then false else true

/-- Embeds `SyncPlans.Total` (syncplans.go lines 292-294). -/
def SyncPlans.Total (sps : SyncPlans) : Nat :=
  sps.length

/-- Embeds `SyncPlans.NumEnabled` (syncplans.go lines 298-308). -/
def SyncPlans.NumEnabled (sps : SyncPlans) : Nat :=
  sps.countP (fun sp => sp.enabled)

/-- Embeds `SyncPlans.NumDisabled` (syncplans.go lines 312-322). -/
def SyncPlans.NumDisabled (sps : SyncPlans) : Nat :=
  sps.countP (fun sp => !sp.enabled)

/-- Embeds `SyncPlans.NumStuck` (syncplans.go lines 326-336). -/
def SyncPlans.NumStuck (sps : SyncPlans) (now : Int) : Nat :=
  sps.countP (fun sp => sp.IsStuck now)

/-- Embeds `SyncPlans.NumProblemPlans` (syncplans.go lines 339-345):
currently exactly the number of stuck plans. -/
def SyncPlans.NumProblemPlans (sps : SyncPlans) (now : Int) : Nat :=
  SyncPlans.NumStuck sps now

/-- Embeds `SyncPlans.Stuck` (syncplans.go lines 389-400).  Note the filter
condition in the source is `syncPlan.Enabled && time.Time(syncPlan.NextSync).Before(now)`:
unlike `IsStuck` it applies no grace period. -/
def SyncPlans.Stuck (sps : SyncPlans) (now : Int) : SyncPlans :=
  sps.filter (fun sp => sp.enabled && decide (sp.nextSync < now))

/-! ## Theorem for claim C1 -/

/-- C1: for every sync plan and reference instant `now`, `IsStuck` is false
when `enabled = false` regardless of `nextSync`; otherwise, with
`diffMinutes = now - nextSync`, it is false when `nextSync` is in the future,
false when `0 < diffMinutes ≤ 5` (grace period), and true when
`diffMinutes > 5`. -/
theorem isStuck_cases (sp : SyncPlan) (now : Int) :
    (sp.enabled = false → sp.IsStuck now = false)
    ∧ (now < sp.nextSync → sp.IsStuck now = false)
    ∧ (0 < now - sp.nextSync → now - sp.nextSync ≤ syncTimeGraceMinutes * nsPerMinute →
        sp.IsStuck now = false)
    ∧ (sp.enabled = true → syncTimeGraceMinutes * nsPerMinute < now - sp.nextSync →
        sp.IsStuck now = true) := by
  unfold SyncPlan.IsStuck
  refine ⟨fun hdis => ?_, fun hfut => ?_, fun hpast hgrace => ?_, fun hen hdiff => ?_⟩
  · simp [hdis]
  · have : ¬ (sp.enabled = true ∧ sp.nextSync < now) := by
      rintro ⟨-, hlt⟩; omega
    simp only [if_neg this]
  · by_cases hc : sp.enabled = true ∧ sp.nextSync < now
    · simp [hc, hgrace]
    · simp [hc]
  · have hlt : sp.nextSync < now := by
      have hg : (0 : Int) < syncTimeGraceMinutes * nsPerMinute := by decide
      omega
    have hng : ¬ (now - sp.nextSync ≤ syncTimeGraceMinutes * nsPerMinute) := by omega
    simp [hen, hlt, hng]

/-- Witness for `isStuck_cases` at concrete inputs: a disabled plan, a plan
with a future next sync, a plan 3 minutes past due (inside grace), and a plan
10 minutes past due (stuck). -/
theorem isStuck_cases_witness :
    (SyncPlan.IsStuck
      { originalSyncDate := 0, nextSync := 100, updatedAt := 0, createdAt := 0,
        products := [], cronExpression := "", description := "", interval := "daily",
        name := "p1", organizationName := "", organizationLabel := "",
        organizationTitle := "", recurringLogicID := 0, id := 1, organizationID := 1,
        permissions := ⟨false, false, false⟩, enabled := false } 1000000000000 = false)
    ∧ (SyncPlan.IsStuck
      { originalSyncDate := 0, nextSync := 2000000000000, updatedAt := 0, createdAt := 0,
        products := [], cronExpression := "", description := "", interval := "daily",
        name := "p2", organizationName := "", organizationLabel := "",
        organizationTitle := "", recurringLogicID := 0, id := 2, organizationID := 1,
        permissions := ⟨false, false, false⟩, enabled := true } 1000000000000 = false)
    ∧ (SyncPlan.IsStuck
      { originalSyncDate := 0, nextSync := 0, updatedAt := 0, createdAt := 0,
        products := [], cronExpression := "", description := "", interval := "daily",
        name := "p3", organizationName := "", organizationLabel := "",
        organizationTitle := "", recurringLogicID := 0, id := 3, organizationID := 1,
        permissions := ⟨false, false, false⟩, enabled := true } 180000000000 = false)
    ∧ (SyncPlan.IsStuck
      { originalSyncDate := 0, nextSync := 0, updatedAt := 0, createdAt := 0,
        products := [], cronExpression := "", description := "", interval := "daily",
        name := "p4", organizationName := "", organizationLabel := "",
        organizationTitle := "", recurringLogicID := 0, id := 4, organizationID := 1,
        permissions := ⟨false, false, false⟩, enabled := true } 600000000000 = true) := by
  refine ⟨(isStuck_cases _ _).1 rfl, (isStuck_cases _ _).2.1 (by decide),
    (isStuck_cases _ _).2.2.1 (by decide) (by decide),
    (isStuck_cases _ _).2.2.2 rfl (by decide)⟩

/-! ## Theorems for claim C6 -/

/-- C9: for every sync plan that is enabled and whose `nextSync` is the zero
instant (never scheduled), `IsStuck` returns true (whenever `now` is more than
the grace period past the zero instant, as every real clock reading is),
and therefore such a plan counts toward `NumStuck` and `NumProblemPlans` of
any collection containing it. -/
theorem isStuck_neverScheduled (sp : SyncPlan) (now : Int) (sps : SyncPlans)
    (hmem : sp ∈ sps) (hen : sp.enabled = true) (hzero : sp.nextSync = 0)
    (hnow : syncTimeGraceMinutes * nsPerMinute < now) :
    sp.IsStuck now = true
    ∧ 1 ≤ SyncPlans.NumStuck sps now
    ∧ 1 ≤ SyncPlans.NumProblemPlans sps now := by
  have hstuck : sp.IsStuck now = true := by
    unfold SyncPlan.IsStuck
    have hg : (0 : Int) < syncTimeGraceMinutes * nsPerMinute := by decide
    have hlt : sp.nextSync < now := by omega
    have hng : ¬ (now - sp.nextSync ≤ syncTimeGraceMinutes * nsPerMinute) := by omega
    simp [hen, hlt, hng]
  have hcount : 1 ≤ SyncPlans.NumStuck sps now := by
    unfold SyncPlans.NumStuck
    have := List.countP_pos_iff (p := fun sp => sp.IsStuck now) (l := sps)
    exact this.mpr ⟨sp, hmem, hstuck⟩
  exact ⟨hstuck, hcount, hcount⟩

/-- Witness for `isStuck_neverScheduled`: a singleton collection holding an
enabled, never-scheduled plan evaluated 10 minutes past the zero instant. -/
theorem isStuck_neverScheduled_witness :
    SyncPlan.IsStuck
      { originalSyncDate := 0, nextSync := 0, updatedAt := 0, createdAt := 0,
        products := [], cronExpression := "", description := "", interval := "daily",
        name := "p6", organizationName := "", organizationLabel := "",
        organizationTitle := "", recurringLogicID := 0, id := 6, organizationID := 1,
        permissions := ⟨false, false, false⟩, enabled := true } 600000000000 = true
    ∧ 1 ≤ SyncPlans.NumStuck
      [{ originalSyncDate := 0, nextSync := 0, updatedAt := 0, createdAt := 0,
         products := [], cronExpression := "", description := "", interval := "daily",
         name := "p6", organizationName := "", organizationLabel := "",
         organizationTitle := "", recurringLogicID := 0, id := 6, organizationID := 1,
         permissions := ⟨false, false, false⟩, enabled := true }] 600000000000
    ∧ 1 ≤ SyncPlans.NumProblemPlans
      [{ originalSyncDate := 0, nextSync := 0, updatedAt := 0, createdAt := 0,
         products := [], cronExpression := "", description := "", interval := "daily",
         name := "p6", organizationName := "", organizationLabel := "",
         organizationTitle := "", recurringLogicID := 0, id := 6, organizationID := 1,
         permissions := ⟨false, false, false⟩, enabled := true }] 600000000000 := by
  exact isStuck_neverScheduled _ 600000000000 _ (List.mem_singleton.mpr rfl) rfl rfl
    (by decide)

/-! ## Organizations and aggregate service state -/

/-- Embeds `Organization` (organizations source, lines 113-124). -/
structure Organization where
  createdAt : Int
  updatedAt : Int
  description : String
  label : String
  name : String
  title : String
  syncPlans : SyncPlans
  id : Int
deriving DecidableEq

/-- Embeds `Organizations` (organizations source, line 127). -/
abbrev Organizations := List Organization

/-- Embeds `Organizations.NumOrgs`. -/
def Organizations.NumOrgs (orgs : Organizations) : Nat :=
  orgs.length

/-- Embeds `Organizations.NumPlans`. -/
def Organizations.NumPlans (orgs : Organizations) : Nat :=
  (orgs.map (fun org => org.syncPlans.length)).sum

/-- Embeds `Organizations.NumPlansEnabled`. -/
def Organizations.NumPlansEnabled (orgs : Organizations) : Nat :=
  (orgs.map (fun org => org.syncPlans.countP (fun sp => sp.enabled))).sum

/-- Embeds `Organizations.NumPlansDisabled`. -/
def Organizations.NumPlansDisabled (orgs : Organizations) : Nat :=
  (orgs.map (fun org => SyncPlans.NumDisabled org.syncPlans)).sum

/-- Embeds `Organizations.NumPlansStuck`. -/
def Organizations.NumPlansStuck (orgs : Organizations) (now : Int) : Nat :=
  (orgs.map (fun org => SyncPlans.NumStuck org.syncPlans now)).sum

/-- Embeds `Organizations.NumProblemPlans`: currently exactly
`NumPlansStuck`. -/
def Organizations.NumProblemPlans (orgs : Organizations) (now : Int) : Nat :=
  Organizations.NumPlansStuck orgs now

/-- Embeds `Organizations.HasCriticalState` (organizations source, lines
377-382): the extended-threshold logic is a TODO stub returning `false`. -/
def Organizations.HasCriticalState (_orgs : Organizations) : Bool :=
  false

/-- Embeds `Organizations.HasWarningState` (organizations source, lines
384-388). -/
def Organizations.HasWarningState (orgs : Organizations) (now : Int) : Bool :=
  !Organizations.HasCriticalState orgs
    && decide (0 < Organizations.NumProblemPlans orgs now)

/-- Embeds `Organizations.IsOKState` (organizations source, lines 364-373). -/
def Organizations.IsOKState (orgs : Organizations) (now : Int) : Bool :=
  !Organizations.HasWarningState orgs now && !Organizations.HasCriticalState orgs

/-- Models the `nagios.ServiceState` record of the external go-nagios
dependency: a Nagios service-check status label together with its exit
code. -/
structure ServiceState where
  label : String
  exitCode : Int
deriving DecidableEq

/-- Models `nagios.StateOKLabel` / `nagios.StateOKExitCode` and the other
state constants of the external go-nagios dependency (standard Nagios plugin
labels and exit codes). -/
def StateOK : ServiceState := ⟨"OK", 0⟩

/-- Models the go-nagios WARNING label/exit-code pair. -/
def StateWARNING : ServiceState := ⟨"WARNING", 1⟩

/-- Models the go-nagios CRITICAL label/exit-code pair. -/
def StateCRITICAL : ServiceState := ⟨"CRITICAL", 2⟩

/-- Models the go-nagios UNKNOWN label/exit-code pair. -/
def StateUNKNOWN : ServiceState := ⟨"UNKNOWN", 3⟩

/-- Embeds `Organizations.ServiceState` (organizations source, lines
392-415): a switch selecting, in order, CRITICAL, WARNING, OK, and a
defensive default of UNKNOWN. -/
def Organizations.ServiceState (orgs : Organizations) (now : Int) : ServiceState :=
  if Organizations.HasCriticalState orgs then StateCRITICAL
  else if Organizations.HasWarningState orgs now then StateWARNING
  else if Organizations.IsOKState orgs now then StateOK
  else StateUNKNOWN

/-! ## Theorem for claim C3 -/

/-- C3: for every organizations collection, `ServiceState` follows the
precedence CRITICAL > WARNING > OK > UNKNOWN: with zero problem plans the
result is OK, with one or more problem plans it is WARNING, the CRITICAL
branch is unreachable for every input (the policy stub `HasCriticalState`
always returns false), and the defensive UNKNOWN default is likewise never
produced. -/
theorem serviceState_spec (orgs : Organizations) (now : Int) :
    (Organizations.NumProblemPlans orgs now = 0 →
      Organizations.ServiceState orgs now = StateOK)
    ∧ (0 < Organizations.NumProblemPlans orgs now →
      Organizations.ServiceState orgs now = StateWARNING)
    ∧ Organizations.HasCriticalState orgs = false
    ∧ Organizations.ServiceState orgs now ≠ StateCRITICAL
    ∧ Organizations.ServiceState orgs now ≠ StateUNKNOWN := by
  have hcrit : Organizations.HasCriticalState orgs = false := rfl
  by_cases hwarn : 0 < Organizations.NumProblemPlans orgs now
  · have hw : Organizations.HasWarningState orgs now = true := by
      simp [Organizations.HasWarningState, hcrit, hwarn]
    have hstate : Organizations.ServiceState orgs now = StateWARNING := by
      simp [Organizations.ServiceState, hcrit, hw]
    refine ⟨fun hzero => absurd hwarn (by omega), fun _ => hstate, hcrit, ?_, ?_⟩
    · rw [hstate]; decide
    · rw [hstate]; decide
  · have hw : Organizations.HasWarningState orgs now = false := by
      simp [Organizations.HasWarningState, hcrit, hwarn]
    have hok : Organizations.IsOKState orgs now = true := by
      simp [Organizations.IsOKState, hw, hcrit]
    have hstate : Organizations.ServiceState orgs now = StateOK := by
      simp [Organizations.ServiceState, hcrit, hw, hok]
    refine ⟨fun _ => hstate, fun hpos => absurd hpos hwarn, hcrit, ?_, ?_⟩
    · rw [hstate]; decide
    · rw [hstate]; decide

/-- Witness for `serviceState_spec`: an organization with no sync plans is
OK, and one holding a single enabled plan 10 minutes past its next sync is
WARNING. -/
theorem serviceState_spec_witness :
    Organizations.ServiceState
      [{ createdAt := 0, updatedAt := 0, description := "", label := "org1",
         name := "org1", title := "org1", syncPlans := [], id := 1 }] 600000000000
      = StateOK
    ∧ Organizations.ServiceState
      [{ createdAt := 0, updatedAt := 0, description := "", label := "org2",
         name := "org2", title := "org2",
         syncPlans :=
           [{ originalSyncDate := 0, nextSync := 0, updatedAt := 0, createdAt := 0,
              products := [], cronExpression := "", description := "",
              interval := "daily", name := "p7", organizationName := "org2",
              organizationLabel := "org2", organizationTitle := "org2",
              recurringLogicID := 0, id := 7, organizationID := 2,
              permissions := ⟨false, false, false⟩, enabled := true }],
         id := 2 }] 600000000000 = StateWARNING := by
  constructor
  · exact (serviceState_spec _ 600000000000).1 (by decide)
  · exact (serviceState_spec _ 600000000000).2.1 (by decide)

/-! ## Theorem for claim C10 -/

/-- C10 (failing-input evaluation): the `Stuck()` filter does not select
exactly the plans for which `IsStuck` is true.  For a single enabled plan
whose `nextSync` lies 2 minutes in the past — inside the 5-minute grace
window — `IsStuck` is false, so `NumStuck` is 0, yet `Stuck()` (whose filter
condition omits the grace period) returns the plan, so the returned
collection has length 1. -/
theorem stuck_filter_grace_mismatch :
    SyncPlans.NumStuck
      [{ originalSyncDate := 0, nextSync := 480000000000, updatedAt := 0, createdAt := 0,
         products := [], cronExpression := "", description := "", interval := "daily",
         name := "p8", organizationName := "", organizationLabel := "",
         organizationTitle := "", recurringLogicID := 0, id := 8, organizationID := 1,
         permissions := ⟨false, false, false⟩, enabled := true }] 600000000000 = 0
    ∧ (SyncPlans.Stuck
      [{ originalSyncDate := 0, nextSync := 480000000000, updatedAt := 0, createdAt := 0,
         products := [], cronExpression := "", description := "", interval := "daily",
         name := "p8", organizationName := "", organizationLabel := "",
         organizationTitle := "", recurringLogicID := 0, id := 8, organizationID := 1,
         permissions := ⟨false, false, false⟩, enabled := true }] 600000000000).length = 1 := by
  constructor
  · decide
  · decide

/-! ## Pagination fetch loops

The two paginated fetch loops are embedded over an abstract server: `resp`
maps a page number to the decoded response envelope for that page (request
preparation, transport and decode failures abort both loops immediately in
the source and are orthogonal to the accounting claims, so the abstract
server models the success path).  The loops are fuel-indexed: `none` means
the fuel was exhausted, which is how an infinite Go loop shows up in the
model.  The returned pair is the accumulated records together with the
number of page requests issued (the final value of `nextPage`). -/

/-- The decoded response envelope fields which drive the pagination
accounting (`results` and `subtotal` of `SyncPlansResponse` /
`OrganizationsResponse`). -/
structure PageResponse (α : Type) where
  results : List α
  subtotal : Int

/-- Embeds the pagination loop of `GetOrganizations` (organizations source,
lines 155-211).  Per iteration: increment the page number, fetch and decode,
append the page's results, then compute
`remaining = subtotal - collected-after-append` and continue while it is
nonzero. -/
def getOrganizationsLoop (resp : Nat → PageResponse α) :
    Nat → Nat → List α → Option (List α × Nat)
  | 0, _, _ => none
  | fuel + 1, page, acc =>
    let nextPage := page + 1
    let r := resp nextPage
    let newAcc := acc ++ r.results
    let remaining := r.subtotal - (newAcc.length : Int)
    if remaining ≠ 0 then getOrganizationsLoop resp fuel nextPage newAcc
    else some (newAcc, nextPage)

/-- Embeds the pagination loop of `getOrgSyncPlans` (syncplans.go lines
424-482).  Per iteration: increment the page number, fetch and decode, then
compute `remaining = subtotal - collected-BEFORE-append` (lines 458-459),
append the page's results, and break when that remainder is zero.  Note the
remainder is sampled before the append, unlike `GetOrganizations`. -/
def getOrgSyncPlansLoop (resp : Nat → PageResponse α) :
    Nat → Nat → List α → Option (List α × Nat)
  | 0, _, _ => none
  | fuel + 1, page, acc =>
    let nextPage := page + 1
    let r := resp nextPage
    let numCollected : Int := acc.length
    let remaining := r.subtotal - numCollected
    let newAcc := acc ++ r.results
    if remaining = 0 then some (newAcc, nextPage)
    else getOrgSyncPlansLoop resp fuel nextPage newAcc

/-- A well-behaved paging server over a fixed record list: page `k` returns
the records in positions `(k-1)*perPage` through `k*perPage - 1`, and every
response reports the full record count as `subtotal`. -/
def standardServer (records : List α) (perPage : Nat) (page : Nat) : PageResponse α :=
  { results := (records.drop ((page - 1) * perPage)).take perPage
    subtotal := (records.length : Int) }

/-- Number of pages needed for `subtotal` records at `perPage` records per
page: the ceiling of `subtotal / perPage`. -/
def numPages (subtotal perPage : Nat) : Nat :=
  (subtotal + perPage - 1) / perPage

theorem numPages_eq {pp k len : Nat} (hpp : 0 < pp) (h1 : k * pp < len)
    (h2 : len ≤ (k + 1) * pp) : numPages len pp = k + 1 := by
  have e1 : (k + 1) * pp = k * pp + pp := by ring
  have e2 : (k + 1 + 1) * pp = k * pp + pp + pp := by ring
  have hlo : (k + 1) * pp ≤ len + pp - 1 := by omega
  have hhi : len + pp - 1 < (k + 1 + 1) * pp := by omega
  exact Nat.div_eq_of_lt_le hlo hhi

theorem getOrganizationsLoop_run (records : List α) (pp : Nat) (hpp : 0 < pp) :
    ∀ fuel k, k * pp < records.length → records.length ≤ (k + fuel) * pp →
      getOrganizationsLoop (standardServer records pp) fuel k (records.take (k * pp))
        = some (records, numPages records.length pp) := by
  intro fuel
  induction fuel with
  | zero =>
    intro k h1 h2
    rw [Nat.add_zero] at h2
    exact absurd (lt_of_le_of_lt h2 h1) (lt_irrefl _)
  | succ fuel ih =>
    intro k h1 h2
    rw [getOrganizationsLoop]
    simp only [standardServer, Nat.add_sub_cancel]
    rw [← List.take_add]
    rcases le_or_lt records.length (k * pp + pp) with hle | hlt
    · have htake : records.take (k * pp + pp) = records := List.take_of_length_le hle
      have hrem : (records.length : Int) - ((records.take (k * pp + pp)).length : Int) = 0 := by
        rw [htake]; omega
      rw [if_neg (by simpa using hrem)]
      rw [htake]
      have : numPages records.length pp = k + 1 :=
        numPages_eq hpp h1 (by rw [Nat.add_one_mul]; omega)
      rw [this]
    · have hlen : (records.take (k * pp + pp)).length = k * pp + pp := by
        rw [List.length_take]
        omega
      have hrem : (records.length : Int) - ((records.take (k * pp + pp)).length : Int) ≠ 0 := by
        rw [hlen]
        omega
      rw [if_pos hrem]
      have hmul : k * pp + pp = (k + 1) * pp := by ring
      rw [hmul]
      exact ih (k + 1) (by omega) (by
        have : k + 1 + fuel = k + (fuel + 1) := by omega
        rw [this]
        exact h2)

theorem getOrgSyncPlansLoop_run (records : List α) (pp : Nat) (hpp : 0 < pp) :
    ∀ fuel k, k * pp < records.length → records.length ≤ (k + fuel) * pp →
      getOrgSyncPlansLoop (standardServer records pp) (fuel + 1) k (records.take (k * pp))
        = some (records, numPages records.length pp + 1) := by
  intro fuel
  induction fuel with
  | zero =>
    intro k h1 h2
    rw [Nat.add_zero] at h2
    exact absurd (lt_of_le_of_lt h2 h1) (lt_irrefl _)
  | succ fuel ih =>
    intro k h1 h2
    rw [getOrgSyncPlansLoop]
    simp only [standardServer, Nat.add_sub_cancel]
    have hacclen : ((records.take (k * pp)).length : Int) = (k * pp : Nat) := by
      rw [List.length_take]
      congr 1
      omega
    have hrem : (records.length : Int) - ((records.take (k * pp)).length : Int) ≠ 0 := by
      rw [hacclen]
      have := h1
      omega
    rw [if_neg hrem, ← List.take_add]
    rcases le_or_lt records.length (k * pp + pp) with hle | hlt
    · -- The next iteration sees all records collected and stops.
      have htake : records.take (k * pp + pp) = records := List.take_of_length_le hle
      rw [htake, getOrgSyncPlansLoop]
      simp only [standardServer, Nat.add_sub_cancel]
      have hdrop : records.drop ((k + 1) * pp) = [] := by
        apply List.drop_eq_nil_of_le
        rw [Nat.add_one_mul]
        omega
      have hrem2 : (records.length : Int) - (records.length : Int) = 0 := by omega
      rw [if_pos hrem2, hdrop]
      have : numPages records.length pp = k + 1 :=
        numPages_eq hpp h1 (by rw [Nat.add_one_mul]; omega)
      simp [this]
    · have hmul : k * pp + pp = (k + 1) * pp := by ring
      rw [hmul]
      exact ih (k + 1) (by omega) (by
        have : k + 1 + fuel = k + (fuel + 1) := by omega
        rw [this]
        exact h2)

/-! ## Theorem for claim C4 (amended) and its counterexample -/

/-- C4 counterexample: against a well-behaved server holding 58 records with
per-page size 20, the `getOrgSyncPlans` pagination loop issues 4 page
requests, not the claimed ceil(58/20) = 3: its remainder check uses the
record count sampled before the current page's results are appended, so a
fourth, empty page is fetched before the loop stops (it still accumulates
all 58 records). -/
theorem getOrgSyncPlansLoop_58_20_counterexample :
    getOrgSyncPlansLoop (standardServer (List.range 58) 20) 10 0 []
      = some (List.range 58, 4)
    ∧ numPages 58 20 = 3 := by
  constructor
  · decide
  · decide

/-- C4 (amended): for every record list and positive per-page size, with
sufficient fuel both pagination loops accumulate exactly the
server-reported `subtotal` records; `GetOrganizations` issues exactly
`max 1 (ceil(subtotal/perPage))` page requests (3 pages of 20, 20, 18
records for subtotal 58 and per-page 20), while `getOrgSyncPlans` issues
exactly `ceil(subtotal/perPage) + 1` page requests, the final page
returning zero records. -/
theorem pagination_accumulates_subtotal (records : List α) (pp fuel : Nat)
    (hpp : 0 < pp) (hfuel : records.length / pp + 2 ≤ fuel) :
    getOrganizationsLoop (standardServer records pp) fuel 0 []
      = some (records, max 1 (numPages records.length pp))
    ∧ getOrgSyncPlansLoop (standardServer records pp) fuel 0 []
      = some (records, numPages records.length pp + 1) := by
  obtain ⟨d, hd⟩ : ∃ d, records.length / pp = d := ⟨_, rfl⟩
  rw [hd] at hfuel
  obtain ⟨f, rfl⟩ : ∃ f, fuel = f + 1 := ⟨fuel - 1, by omega⟩
  have hcap : records.length < (d + 1) * pp := by
    have hmod := Nat.div_add_mod records.length pp
    rw [hd] at hmod
    have hmlt : records.length % pp < pp := Nat.mod_lt _ hpp
    have e : (d + 1) * pp = pp * d + pp := by ring
    omega
  rcases Nat.eq_zero_or_pos records.length with hzero | hposlen
  · have hrecords : records = [] := List.length_eq_zero.mp hzero
    subst hrecords
    have hnp : numPages 0 pp = 0 := by
      unfold numPages
      exact Nat.div_eq_of_lt (by omega)
    constructor
    · rw [getOrganizationsLoop]
      simp [standardServer, hnp]
    · rw [getOrgSyncPlansLoop]
      simp [standardServer, hnp]
  · have hbound : records.length ≤ (0 + f) * pp := by
      rw [Nat.zero_add]
      have hf : d + 1 ≤ f := by omega
      calc records.length ≤ (d + 1) * pp := le_of_lt hcap
        _ ≤ f * pp := Nat.mul_le_mul_right pp hf
    have hbound' : records.length ≤ (0 + (f + 1)) * pp := by
      rw [Nat.zero_add] at hbound ⊢
      calc records.length ≤ f * pp := hbound
        _ ≤ (f + 1) * pp := Nat.mul_le_mul_right pp (by omega)
    have hstart : (0 : Nat) * pp < records.length := by
      rw [Nat.zero_mul]
      exact hposlen
    have hmax : max 1 (numPages records.length pp) = numPages records.length pp := by
      apply max_eq_right
      unfold numPages
      rw [Nat.one_le_div_iff hpp]
      omega
    constructor
    · have h := getOrganizationsLoop_run records pp hpp (f + 1) 0 hstart hbound'
      rw [Nat.zero_mul, List.take_zero] at h
      rw [h, hmax]
    · have h := getOrgSyncPlansLoop_run records pp hpp f 0 hstart hbound
      rw [Nat.zero_mul, List.take_zero] at h
      exact h

/-- Witness for `pagination_accumulates_subtotal`: 58 records at 20 per
page, fetched with fuel 10: the organizations loop stops after 3 pages with
all 58 records, the sync-plans loop after 4 pages. -/
theorem pagination_accumulates_subtotal_witness :
    getOrganizationsLoop (standardServer (List.range 58) 20) 10 0 []
      = some (List.range 58, max 1 (numPages 58 20))
    ∧ getOrgSyncPlansLoop (standardServer (List.range 58) 20) 10 0 []
      = some (List.range 58, numPages 58 20 + 1) := by
  have h := pagination_accumulates_subtotal (List.range 58) 20 10 (by decide) (by decide)
  simpa using h

/-! ## Theorem for claim C5 -/

/-- A misreporting server: every page reports a subtotal of 5 yet returns
zero records, so the claimed remainder is always nonzero. -/
def emptyPageServer : Nat → PageResponse Unit :=
  fun _ => { results := [], subtotal := 5 }

theorem getOrganizationsLoop_emptyPage (fuel : Nat) :
    ∀ page (acc : List Unit), (acc.length : Int) ≠ 5 →
      getOrganizationsLoop emptyPageServer fuel page acc = none := by
  induction fuel with
  | zero => intro page acc _; rfl
  | succ fuel ih =>
    intro page acc h
    rw [getOrganizationsLoop]
    simp only [emptyPageServer, List.append_nil]
    rw [if_pos (by omega)]
    exact ih _ _ h

theorem getOrgSyncPlansLoop_emptyPage (fuel : Nat) :
    ∀ page (acc : List Unit), (acc.length : Int) ≠ 5 →
      getOrgSyncPlansLoop emptyPageServer fuel page acc = none := by
  induction fuel with
  | zero => intro page acc _; rfl
  | succ fuel ih =>
    intro page acc h
    rw [getOrgSyncPlansLoop]
    simp only [emptyPageServer, List.append_nil]
    rw [if_neg (by omega)]
    exact ih _ _ h

/-- C5 (failing-input evaluation): neither pagination loop guards against a
server that misreports `subtotal`.  Against `emptyPageServer` — which
returns zero new results on every page while claiming a remainder of 5 —
both loops run forever: in the fuel model they return `none` for every
fuel.  No `ErrUnexpectedEmptyPage` (or any empty-page error) exists in the
source; the loops' only exit is `subtotal - collected = 0`. -/
theorem pagination_emptyPage_diverges :
    (∀ fuel, getOrganizationsLoop emptyPageServer fuel 0 [] = none)
    ∧ (∀ fuel, getOrgSyncPlansLoop emptyPageServer fuel 0 [] = none) := by
  constructor
  · intro fuel
    exact getOrganizationsLoop_emptyPage fuel 0 [] (by decide)
  · intro fuel
    exact getOrgSyncPlansLoop_emptyPage fuel 0 [] (by decide)

/-! ## Response decoder (decode source file, lines 274-329)

The byte stream is abstracted at JSON-value granularity: a stream is the
sequence of JSON values its bytes contain (of the target type `α`, since
unknown fields are ignored), and `none` models a nil `io.Reader`.
`json.Decoder.Decode` consumes the first value — failing on an empty
stream — and `json.Decoder.More` reports whether a further value follows,
exactly the two operations the source performs. -/

/-- Embeds the sentinel errors of the errors source file: `ErrMissingValue`
and `ErrJSONUnexpectedObjectCount`, plus a case standing for wrapped
non-sentinel causes (for example the `io.EOF` produced by decoding an empty
body). -/
inductive SentinelErr where
  | errMissingValue
  | errHTTPResponseOutsideRange
  | errJSONUnexpectedObjectCount
  | otherCause
deriving DecidableEq

/-- Embeds `PrepError` (errors source file): the failed task, a message, the
source URL, and the wrapped cause. -/
structure PrepError where
  task : String
  message : String
  source : String
  cause : SentinelErr
deriving DecidableEq

/-- Embeds the `PrepTaskDecode` constant. -/
def PrepTaskDecode : String := "decode JSON data"

/-- Embeds `decode` (decode source file, lines 274-329): a nil reader fails
with `ErrMissingValue`; otherwise the first JSON value is decoded (an empty
stream is a decode failure with a non-sentinel cause), and if a further
value trails the first the function fails with
`ErrJSONUnexpectedObjectCount`. -/
def decode (source : Option (List α)) (sourceName : String) : Except PrepError α :=
  match source with
  | none =>
    .error ⟨PrepTaskDecode, "failed to decode JSON data", sourceName, .errMissingValue⟩
  | some [] =>
    .error ⟨PrepTaskDecode, "failed to decode JSON data", sourceName, .otherCause⟩
  | some [v] => .ok v
  | some (_ :: _ :: _) =>
    .error ⟨PrepTaskDecode, "failed to decode JSON data", sourceName, .errJSONUnexpectedObjectCount⟩

/-! ## Theorem for claim C7 -/

/-- C7: the response decoder decodes exactly one JSON object: a stream
holding a single value succeeds with that value; any stream with a second
value trailing the first fails with the multiple-objects error
(`ErrJSONUnexpectedObjectCount`); and a nil/absent stream fails with the
missing-source error (`ErrMissingValue`) rather than succeeding. -/
theorem decode_spec (sourceName : String) (v w : α) (rest : List α) :
    decode (some [v]) sourceName = .ok v
    ∧ decode (some (v :: w :: rest)) sourceName
      = .error ⟨PrepTaskDecode, "failed to decode JSON data", sourceName,
          .errJSONUnexpectedObjectCount⟩
    ∧ decode (none : Option (List α)) sourceName
      = .error ⟨PrepTaskDecode, "failed to decode JSON data", sourceName,
          .errMissingValue⟩ := by
  exact ⟨rfl, rfl, rfl⟩

/-! ## Time normalizer (datetime.go) -/

/-- Embeds `JSONNullKeyword`. -/
def JSONNullKeyword : String := "null"

/-- Embeds `StandardAPITimeLayoutWithTimezone` (datetime.go line 35). -/
def StandardAPITimeLayoutWithTimezone : String := "2006-01-02 15:04:05 UTC"

/-- Embeds `StandardAPITimeLayoutWithOffset` (datetime.go line 48). -/
def StandardAPITimeLayoutWithOffset : String := "2006-01-02 15:04:05 -0700"

/-- Embeds `SyncTimeLayoutWithTimezone` (datetime.go line 59). -/
def SyncTimeLayoutWithTimezone : String := "2006-01-02 15:04:05 UTC"

/-- Embeds `SyncTimeLayoutWithOffset` (datetime.go line 69). -/
def SyncTimeLayoutWithOffset : String := "2006-01-02 15:04:05 -0700"

/-- Embeds `LegacySyncTimeLayout` (datetime.go line 86). -/
def LegacySyncTimeLayout : String := "2006/01/02 15:04:05 -0700"

/-- Embeds the `knownLayouts` slice of `parseDate` (datetime.go lines
187-193). -/
def knownLayouts : List String :=
  [StandardAPITimeLayoutWithTimezone,
   StandardAPITimeLayoutWithOffset,
   SyncTimeLayoutWithTimezone,
   SyncTimeLayoutWithOffset,
   LegacySyncTimeLayout]

/-- Models the error value produced by Go's `time.Parse` (standard library):
it carries the layout and the offending value. -/
structure TimeParseFailure where
  layout : String
  value : String
deriving DecidableEq

/-- An oracle for Go's `time.Parse layout value`: `.ok t` when the value
parses under the layout, `.error e` otherwise. -/
abbrev TimeParseOracle := String → String → Except TimeParseFailure Int

/-- Embeds the layout loop of `parseDate` (datetime.go lines 196-201).  The
loop body declares `result, err := time.Parse(layout, datetime)` with `:=`,
so the inner `err` SHADOWS the outer `var err error` declared on line 195:
when a parse succeeds the parsed instant is returned with a nil error, and
when a layout fails the inner error is simply discarded.  The outer `err`
(second component of the final return) is never assigned and stays nil. -/
def parseDateLoop (timeParse : TimeParseOracle) (datetime : String) :
    List String → Int × Option TimeParseFailure
  | [] => (0, none)
  | layout :: rest =>
    match timeParse layout datetime with
    | .ok result => (result, none)
    | .error _ => parseDateLoop timeParse datetime rest

/-- Embeds `parseDate` (datetime.go lines 186-204). -/
def parseDate (timeParse : TimeParseOracle) (datetime : String) :
    Int × Option TimeParseFailure :=
  parseDateLoop timeParse datetime knownLayouts

/-- Drops every leading and trailing occurrence of `c` from the character
list, embedding Go's `strings.Trim(s, cutset)` for a one-character cutset. -/
def trimCharList (c : Char) (l : List Char) : List Char :=
  ((l.dropWhile (· == c)).reverse.dropWhile (· == c)).reverse

/-- Embeds `strings.Trim(string(data), "\x22")` as used by the UnmarshalJSON
methods. -/
def trimChar (c : Char) (s : String) : String :=
  String.mk (trimCharList c s.data)

/-- Embeds `StandardAPITime.UnmarshalJSON` (datetime.go lines 144-160),
returning the updated destination instant or an error.  `dt` is the instant
the destination pointer holds before the call (the no-op branches leave it
unchanged). -/
def StandardAPITime.unmarshalJSON (timeParse : TimeParseOracle) (data : String)
    (dt : Int) : Except TimeParseFailure Int :=
  let value := trimChar '"' data
  if value = "" ∨ value = JSONNullKeyword then
    .ok dt
  else
    match parseDate timeParse value with
    | (_, some e) => .error e
    | (t, none) => .ok t

/-! ## Theorem for claim C2 -/

/-- C2 (failing-input evaluation): for every input string for which no known
layout parses — whatever errors the underlying `time.Parse` reports —
`parseDate` returns the zero instant together with a NIL error: the `:=` in
the loop body shadows the outer `err` variable, so the function reports
success instead of the documented parse failure, and `UnmarshalJSON`
consequently succeeds, silently storing the zero instant. -/
theorem parseDate_noMatch_returns_nil_error (timeParse : TimeParseOracle)
    (s : String) (hfail : ∀ l ∈ knownLayouts, ∃ e, timeParse l s = .error e)
    (hne : s ≠ "") (hnn : s ≠ JSONNullKeyword) (htrim : trimChar '"' s = s) :
    parseDate timeParse s = (0, none)
    ∧ ∀ dt : Int, StandardAPITime.unmarshalJSON timeParse s dt = .ok 0 := by
  have hloop : ∀ ls : List String, (∀ l ∈ ls, ∃ e, timeParse l s = .error e) →
      parseDateLoop timeParse s ls = (0, none) := by
    intro ls
    induction ls with
    | nil => intro _; rfl
    | cons layout rest ih =>
      intro hall
      obtain ⟨e, he⟩ := hall layout (List.mem_cons_self _ _)
      rw [parseDateLoop, he]
      exact ih fun l hl => hall l (List.mem_cons_of_mem _ hl)
  have hpd : parseDate timeParse s = (0, none) := hloop knownLayouts hfail
  refine ⟨hpd, fun dt => ?_⟩
  unfold StandardAPITime.unmarshalJSON
  rw [htrim, if_neg (by simp [hne, hnn]), hpd]

/-- Witness for `parseDate_noMatch_returns_nil_error`: with an oracle under
which no layout parses the string "garbage" (as is the case for Go's
`time.Parse`, since "garbage" matches none of the five layouts), `parseDate`
returns the zero instant and a nil error, and `UnmarshalJSON` succeeds. -/
theorem parseDate_noMatch_witness :
    parseDate (fun l v => .error ⟨l, v⟩) "garbage" = (0, none)
    ∧ StandardAPITime.unmarshalJSON (fun l v => .error ⟨l, v⟩) "garbage" 7 = .ok 0 := by
  have h := parseDate_noMatch_returns_nil_error (fun l v => .error ⟨l, v⟩) "garbage"
    (fun l _ => ⟨⟨l, "garbage"⟩, rfl⟩) (by decide) (by decide) (by decide)
  exact ⟨h.1, h.2 7⟩

/-! ## NullString (part of the rsat package)

`NullString.MarshalJSON` calls `json.Marshal(string(ns))` for non-empty
values; the standard library's string encoder (with its default HTML
escaping) is modelled character by character by `goJSONEscapeChar`.
`NullString.UnmarshalJSON` does not invoke a JSON string decoder: it only
compares the raw bytes against the null keyword and strips leading and
trailing double-quote characters with `strings.Trim`. -/

/-- Lowercase hexadecimal digit, as used by Go's JSON string encoder. -/
def hexDigit (n : Nat) : Char :=
  "0123456789abcdef".data.getD n '0'

/-- Models Go's `encoding/json` string escaping (the `appendString` encoder
with HTML escaping enabled, as used by `json.Marshal`) for a single
character: double quote and backslash get a backslash escape, newline,
carriage return and tab get their two-character escapes, other control
characters and the HTML-sensitive characters get a `\u00XX` escape, the
line separators U+2028/U+2029 get `\u202X` escapes, and every other
character is copied unchanged. -/
def goJSONEscapeChar (c : Char) : List Char :=
  if c = '"' then ['\\', '"']
  else if c = '\\' then ['\\', '\\']
  else if c = '\n' then ['\\', 'n']
  else if c = '\r' then ['\\', 'r']
  else if c = '\t' then ['\\', 't']
  else if c.toNat < 0x20 ∨ c = '<' ∨ c = '>' ∨ c = '&' then
    ['\\', 'u', '0', '0', hexDigit (c.toNat / 16), hexDigit (c.toNat % 16)]
  else if c.toNat = 0x2028 ∨ c.toNat = 0x2029 then
    ['\\', 'u', '2', '0', '2', hexDigit (c.toNat % 16)]
  else [c]

/-- Embeds `NullString.MarshalJSON` (NullString source, lines 22-31): the
empty string marshals to the JSON null keyword, every other value to the
value's JSON string encoding. -/
def NullString.marshalJSON (ns : String) : String :=
  if ns.length = 0 then JSONNullKeyword
  else String.mk ('"' :: (ns.data.map goJSONEscapeChar).flatten ++ ['"'])

/-- Embeds `NullString.UnmarshalJSON` (NullString source, lines 35-45),
returning the string stored through the receiver pointer: the JSON null
keyword decodes to the empty string, anything else to the raw bytes with
leading and trailing double quotes trimmed (note: no unescaping). -/
def NullString.unmarshalJSON (data : String) : String :=
  if data = JSONNullKeyword then ""
  else trimChar '"' data

theorem dropWhile_beq_eq_self {c : Char} {m : List Char} (h : ∀ x ∈ m, x ≠ c) :
    m.dropWhile (· == c) = m := by
  cases m with
  | nil => rfl
  | cons x t =>
    have hx : ¬ ((x == c) = true) := by
      simp only [beq_iff_eq]
      exact h x (List.mem_cons_self x t)
    rw [List.dropWhile_cons, if_neg hx]

theorem trimCharList_wrap (c : Char) (l : List Char) (hne : l ≠ [])
    (h : ∀ x ∈ l, x ≠ c) : trimCharList c (c :: l ++ [c]) = l := by
  obtain ⟨a, t, rfl⟩ := List.exists_cons_of_ne_nil hne
  unfold trimCharList
  simp only [List.cons_append]
  have ha : ¬ ((a == c) = true) := by
    simp only [beq_iff_eq]
    exact h a (List.mem_cons_self a t)
  have hrev1 : (a :: (t ++ [c])).reverse = c :: (t.reverse ++ [a]) := by
    rw [List.reverse_cons, List.reverse_append]
    rfl
  have hdw : List.dropWhile (· == c) (t.reverse ++ [a]) = t.reverse ++ [a] := by
    refine dropWhile_beq_eq_self fun x hx => ?_
    rcases List.mem_append.mp hx with hx1 | hx2
    · exact h x (List.mem_cons_of_mem _ (List.mem_reverse.mp hx1))
    · rw [List.mem_singleton.mp hx2]
      exact h a (List.mem_cons_self a t)
  rw [List.dropWhile_cons, if_pos (by simp), List.dropWhile_cons, if_neg ha, hrev1,
    List.dropWhile_cons, if_pos (by simp), hdw, List.reverse_append, List.reverse_reverse]
  rfl

theorem join_map_escape (l : List Char) (h : ∀ c ∈ l, goJSONEscapeChar c = [c]) :
    (l.map goJSONEscapeChar).flatten = l := by
  induction l with
  | nil => rfl
  | cons c t ih =>
    rw [List.map_cons, List.flatten_cons, h c (List.mem_cons_self c t),
      ih fun x hx => h x (List.mem_cons_of_mem _ hx), List.singleton_append]

/-! ## Theorems for claim C8 -/

/-- C8 counterexample: `NullString` does NOT round-trip losslessly for every
non-empty string.  For the one-character string holding a single backslash,
`MarshalJSON` produces the five bytes quote backslash backslash quote
(JSON escaping), but `UnmarshalJSON` only trims the quotes without
unescaping, yielding a two-backslash string different from the original. -/
theorem nullString_roundtrip_counterexample :
    NullString.unmarshalJSON (NullString.marshalJSON "\\") ≠ "\\" := by
  decide

/-- C8 (amended): `NullString` round-trips losslessly for every non-empty
string containing no character that JSON escaping rewrites (no double
quote, backslash, control character, or HTML-escaped ampersand or angle
bracket); marshaling the empty string produces the JSON null keyword, and
unmarshaling null yields the empty string, so null and empty-string are not
distinguishable after decoding. -/
theorem nullString_roundtrip (s : String) (hne : s ≠ "")
    (hsafe : ∀ c ∈ s.data, goJSONEscapeChar c = [c]) :
    NullString.unmarshalJSON (NullString.marshalJSON s) = s
    ∧ NullString.marshalJSON "" = JSONNullKeyword
    ∧ NullString.unmarshalJSON JSONNullKeyword = "" := by
  refine ⟨?_, by decide, by decide⟩
  have hdata : s.data ≠ [] := by
    intro hd
    exact hne (String.ext (hd.trans rfl))
  have hlen : ¬ (s.length = 0) := by
    intro h0
    exact hdata (List.length_eq_zero.mp h0)
  have hquote : ∀ x ∈ s.data, x ≠ '"' := by
    intro x hx heq
    have hesc := hsafe x hx
    rw [heq] at hesc
    exact absurd hesc (by decide)
  have hmark : NullString.marshalJSON s = String.mk ('"' :: s.data ++ ['"']) := by
    unfold NullString.marshalJSON
    rw [if_neg hlen, join_map_escape s.data hsafe]
  have hnotnull : String.mk ('"' :: s.data ++ ['"']) ≠ JSONNullKeyword := by
    intro hcontra
    have hd2 : '"' :: (s.data ++ ['"']) = 'n' :: ['u', 'l', 'l'] :=
      congrArg String.data hcontra
    injection hd2 with h1 _
    exact absurd h1 (by decide)
  rw [hmark]
  unfold NullString.unmarshalJSON
  rw [if_neg hnotnull]
  unfold trimChar
  show String.mk (trimCharList '"' ('"' :: s.data ++ ['"'])) = s
  rw [trimCharList_wrap '"' s.data hdata hquote]

/-- Witness for `nullString_roundtrip`: the escape-free string "abc"
round-trips, the empty string marshals to null, and null unmarshals to the
empty string. -/
theorem nullString_roundtrip_witness :
    NullString.unmarshalJSON (NullString.marshalJSON "abc") = "abc"
    ∧ NullString.marshalJSON "" = JSONNullKeyword
    ∧ NullString.unmarshalJSON JSONNullKeyword = "" :=
  nullString_roundtrip "abc" (by decide) (by decide)

end Rsat
